import Mathlib

/-!
Verification development for the BTU scheduler core (btu_py):
cron normalization (btu_py/lib/btu_cron.py), cron-to-UTC evaluation,
queue job records and the dispatcher (btu_py/lib/btu_rq.py), and the
HTTP enqueue trigger (btu_py/lib/structs/__init__.py).

Python strings are embedded through their character lists; `str.split(" ")`
and `str.strip()` are modelled by `splitCh` / `stripCh` below, which follow
CPython's semantics for a single-character separator (empty fields are kept,
`"".split(" ") == [""]`) and ASCII whitespace stripping.
-/

deriving instance DecidableEq for Except

namespace BtuPy

/-- ASCII whitespace characters removed by Python's `str.strip()`. -/
def isPySpace (c : Char) : Bool :=
  c = ' ' || c = '\t' || c = '\n' || c = '\r' || c = '\x0b' || c = '\x0c'

/-- Embedding of Python `s.split(" ")` on character lists: split at every
space character, keeping empty fields.  Never returns `[]`. -/
def splitCh : List Char → List (List Char)
  | [] => [[]]
  | c :: rest =>
    if c = ' ' then [] :: splitCh rest
    else
      match splitCh rest with
      | [] => [[c]]
      | t :: ts => (c :: t) :: ts

/-- Embedding of Python `s.strip()` on character lists. -/
def stripCh (l : List Char) : List Char :=
  ((l.dropWhile isPySpace).reverse.dropWhile isPySpace).reverse

/-- Python `s.split(" ")`. -/
def pySplitSpace (s : String) : List String :=
  (splitCh s.data).map String.mk

/-- Python `s.strip()`. -/
def pyStrip (s : String) : String :=
  String.mk (stripCh s.data)

/-- Join character-list tokens with single spaces (inverse of `splitCh`). -/
def joinSp : List (List Char) → List Char
  | [] => []
  | [t] => t
  | t :: ts => t ++ ' ' :: joinSp ts

/-- Join string tokens with single spaces. -/
def joinTokens : List String → String
  | [] => ""
  | [t] => t
  | t :: ts => t ++ " " ++ joinTokens ts

/-! ## Cron Normalizer (btu_py/lib/btu_cron.py) -/

/-- `CronStruct` — a cron expression of 7 elements (`None` = wildcard). -/
structure CronStruct where
  second : Option String
  minute : Option String
  hour : Option String
  day_of_month : Option String
  month : Option String
  day_of_week : Option String
  year : Option String
deriving DecidableEq, Repr

/-- Python truthiness helper inside `to_string` / `to_string7`:
`value if value else '*'` — `None` and the empty string render as `*`. -/
def value_or_wildcard : Option String → String
  | none => "*"
  | some v => if v = "" then "*" else v

/-- `CronStruct.to_string`: render the 5-field (minute hour dom month dow)
form, substituting `*` for unset fields. -/
def CronStruct.to_string (c : CronStruct) : String :=
  value_or_wildcard c.minute ++ " " ++ value_or_wildcard c.hour ++ " " ++
    value_or_wildcard c.day_of_month ++ " " ++ value_or_wildcard c.month ++ " " ++
    value_or_wildcard c.day_of_week

/-- `CronStruct.to_string7`: render all 7 fields, substituting `*` for
unset fields. -/
def CronStruct.to_string7 (c : CronStruct) : String :=
  value_or_wildcard c.second ++ " " ++ value_or_wildcard c.minute ++ " " ++
    value_or_wildcard c.hour ++ " " ++ value_or_wildcard c.day_of_month ++ " " ++
    value_or_wildcard c.month ++ " " ++ value_or_wildcard c.day_of_week ++ " " ++
    value_or_wildcard c.year

/-- Error message of `cron_str_to_cron_str7` (the Python `ValueError`),
reporting the actual element count. -/
def wrong_quantity_message (n : Nat) (s : String) : String :=
  "Wrong quantity of elements (" ++ (toString n ++
    (") found in cron_expression_string " ++ s))

/-- `cron_str_to_cron_str7`: given a cron expression with N elements,
transform into an expression with 7 elements.  The element count is taken
from the *stripped* input, but the returned expression embeds the input
string as written (exactly as the Python code does). -/
def cron_str_to_cron_str7 (cron_expression_string : String) : Except String String :=
  let cron_elements := pySplitSpace (pyStrip cron_expression_string)
  match cron_elements.length with
  | 5 => .ok ("0 " ++ cron_expression_string ++ " *")
  | 6 => .ok ("0 " ++ cron_expression_string)
  | 7 => .ok cron_expression_string
  | n => .error (wrong_quantity_message n cron_expression_string)

/-- `nonwildcard_or_none`: `None if element == "*" else element`. -/
def nonwildcard_or_none (element : String) : Option String :=
  if element = "*" then none else some element

/-- `CronStruct.from_string`: normalize to 7 elements, split on single
spaces, and read the fields positionally.  An out-of-range access (the
Python `IndexError`) is modelled as an error; `from_string_vector_length`
below shows it cannot occur. -/
def CronStruct.from_string (cron_string : String) : Except String CronStruct :=
  match cron_str_to_cron_str7 cron_string with
  | .error e => .error e
  | .ok cron7_expression =>
    let vector_cron7 := pySplitSpace cron7_expression
    if h : 7 ≤ vector_cron7.length then
      .ok {
        second := nonwildcard_or_none vector_cron7[0]
        minute := nonwildcard_or_none vector_cron7[1]
        hour := nonwildcard_or_none vector_cron7[2]
        day_of_month := nonwildcard_or_none vector_cron7[3]
        month := nonwildcard_or_none vector_cron7[4]
        day_of_week := nonwildcard_or_none vector_cron7[5]
        year := nonwildcard_or_none vector_cron7[6] }
    else .error "IndexError"

/-! ### Canonical cron strings

A cron string is in canonical whitespace form when it is the single-space
join of fields that are nonempty and contain no whitespace character.
For such strings `from_string` reads the fields positionally as intended;
the lemmas here compute its result. -/

/-- A canonical field: nonempty and whitespace-free. -/
def CanonicalField (t : String) : Prop :=
  t.data ≠ [] ∧ ∀ c ∈ t.data, isPySpace c = false

instance (t : String) : Decidable (CanonicalField t) := by
  unfold CanonicalField; infer_instance


/-- A cron field that, when set, contains no space (true of every field a
parse produces, since split fields cannot contain the separator). -/
def FieldSpaceFree (f : Option String) : Prop :=
  ∀ v, f = some v → ' ' ∉ v.data

/-! ## Cron Evaluator (tz_cron_to_utc_datetimes, btu_py/lib/btu_cron.py)

Datetimes are embedded as a wall-clock reading (seconds on a linear clock,
as displayed in the datetime's own zone) together with the UTC offset of
that zone; the instant denoted is `wall - offset`.  A timezone is a pair of
offset functions: the offset assigned to a naive local reading
(`localize_datetime`, zoneinfo's `utcoffset`) and the offset in force at an
absolute instant (`astimezone`).  The recurrence calculator (the external
`croniter` library) and the configured default timezone are parameters. -/

/-- A timezone-aware datetime: naive wall-clock reading plus UTC offset. -/
structure AwareDT where
  wall : Int
  offset : Int
deriving DecidableEq, Repr

/-- A timezone: offset as a function of a naive local reading, and offset
as a function of an absolute instant. -/
structure TzModel where
  offsetAtLocal : Int → Int
  offsetAtInstant : Int → Int

/-- `make_datetime_naive`: strip the timezone, keeping the wall-clock
reading. -/
def make_datetime_naive (d : AwareDT) : Int := d.wall

/-- `localize_datetime`: attach a timezone to a naive reading, keeping the
wall clock and adopting the zone's offset for that reading. -/
def localize_datetime (naive : Int) (tz : TzModel) : AwareDT :=
  { wall := naive, offset := tz.offsetAtLocal naive }

/-- `astimezone(ZoneInfo('UTC'))`: convert to UTC, preserving the instant. -/
def astimezone_utc (d : AwareDT) : AwareDT :=
  { wall := d.wall - d.offset, offset := 0 }

/-- `astimezone(tz)`: convert to another timezone, preserving the instant
and adopting the offset in force at that instant. -/
def astimezone_tz (d : AwareDT) (tz : TzModel) : AwareDT :=
  let instant := d.wall - d.offset
  { wall := instant + tz.offsetAtInstant instant, offset := tz.offsetAtInstant instant }

/-- Scenario 3 loop of `tz_cron_to_utc_datetimes`: for each raw instant,
strip the UTC marker, re-localize the naive reading, convert back to UTC,
and append to the accumulator.  (The day-mismatch diagnostic in the loop
only logs and has no effect on the result.) -/
def scenario3_go (tz : TzModel) (acc : List AwareDT) : List AwareDT → List AwareDT
  | [] => acc
  | utc_datetime :: rest =>
    let naive_datetime := make_datetime_naive utc_datetime
    let tz_aware := localize_datetime naive_datetime tz
    let new_utc_datetime := astimezone_utc tz_aware
    scenario3_go tz (acc ++ [new_utc_datetime]) rest

/-- `tz_cron_to_utc_datetimes`: normalize the cron string, run the
recurrence calculator (`croniter_results`, seeded with the 5-field
rendering and the resolved reference instant), then branch: wildcard hour
or `cron_is_utc` pass the raw results through; otherwise each instant is
re-localized from the effective timezone.  A parse failure propagates. -/
def tz_cron_to_utc_datetimes
    (croniter_results : String → AwareDT → Nat → List AwareDT)
    (config_timezone : TzModel) (now_utc : AwareDT)
    (cron_expression_string : String) (cron_timezone : Option TzModel)
    (from_utc_datetime : Option AwareDT) (number_of_results : Nat)
    (cron_is_utc : Bool) : Except String (List AwareDT) :=
  let tz := match cron_timezone with
    | none => config_timezone
    | some z => z
  let fromDT := match from_utc_datetime with
    | none => now_utc
    | some d => d
  match CronStruct.from_string cron_expression_string with
  | .error e => .error e
  | .ok this_cronstruct =>
    let result_datetimes :=
      croniter_results this_cronstruct.to_string fromDT number_of_results
    if this_cronstruct.hour = none ∨ this_cronstruct.hour = some "*" then
      .ok result_datetimes
    else if cron_is_utc then
      .ok result_datetimes
    else
      .ok (scenario3_go tz [] result_datetimes)

/-! ## Queue Job Record and Dispatcher (btu_py/lib/btu_rq.py)

The external Redis store is embedded as the state the dispatcher touches:
the job hashes consulted by `Job.fetch` (job id to origin), the
`rq:queues` set and the per-queue lists.  Store commands follow Redis
semantics (`sadd` acknowledges `1` for a newly added member and `0` for an
already-present one; `rpush` acknowledges the new list length); an injected
fault makes a command report the falsy acknowledgment `0` without effect,
modelling the store-write failure the code checks for. -/

/-- The slice of the Redis store the dispatcher reads and writes. -/
structure RedisState where
  jobs : List (String × String)
  queueSet : List String
  queues : List (String × List String)
deriving DecidableEq, Repr

/-- `rq.job.Job.fetch(...).origin`: the origin queue name stored on the
job hash. -/
def lookupJobOrigin (st : RedisState) (job_id : String) : Option String :=
  (st.jobs.find? (fun p => p.1 == job_id)).map (fun p => p.2)

/-- Contents of the list stored at `key` (empty when absent). -/
def getList (st : RedisState) (key : String) : List String :=
  ((st.queues.find? (fun p => p.1 == key)).map (fun p => p.2)).getD []

/-- Replace (or create) the list stored at `key`. -/
def setList (st : RedisState) (key : String) (l : List String) : RedisState :=
  if st.queues.any (fun p => p.1 == key) then
    { st with queues := st.queues.map (fun p => if p.1 == key then (p.1, l) else p) }
  else
    { st with queues := st.queues ++ [(key, l)] }

/-- Redis `SADD rq:queues member`: returns the number of newly added
members (0 when already present). -/
def saddExec (st : RedisState) (member : String) : Nat × RedisState :=
  if member ∈ st.queueSet then (0, st)
  else (1, { st with queueSet := st.queueSet ++ [member] })

/-- Redis `RPUSH key value`: append and return the new list length. -/
def rpushExec (st : RedisState) (key value : String) : Nat × RedisState :=
  let newList := getList st key ++ [value]
  (newList.length, setList st key newList)

/-- `sadd` as issued by the code, with an optional injected store fault
(falsy acknowledgment, no effect). -/
def runSadd (fault : Bool) (st : RedisState) (member : String) : Nat × RedisState :=
  if fault then (0, st) else saddExec st member

/-- `rpush` as issued by the code, with an optional injected store fault. -/
def runRpush (fault : Bool) (st : RedisState) (key value : String) :
    Nat × RedisState :=
  if fault then (0, st) else rpushExec st key value

/-- `DEL_enqueue_job_immediate`: fetch the job's origin, `sadd` the queue
key into `rq:queues`, raise `IOError` on a falsy acknowledgment, then
`rpush` the job id onto the queue list, raising `IOError` on a falsy
acknowledgment.  The pair returned is the outcome together with the store
state left behind (a raised error performs no rollback). -/
def enqueue_job_immediate (sadd_fault rpush_fault : Bool) (st : RedisState)
    (existing_job_id : String) : Except String Unit × RedisState :=
  match lookupJobOrigin st existing_job_id with
  | none => (.error ("No such job: " ++ existing_job_id), st)
  | some origin =>
    let queue_key := "rq:queue:" ++ origin
    let r1 := runSadd sadd_fault st queue_key
    if r1.1 = 0 then
      (.error "Error during enqueue_job_immediate()", r1.2)
    else
      let r2 := runRpush rpush_fault r1.2 queue_key existing_job_id
      if r2.1 = 0 then
        (.error "IOError during rpush", r2.2)
      else
        (.ok (), r2.2)

/-- `RQJobWrapper` — wrapper for the third-party RQ Job object.  Datetime
fields reuse `AwareDT`; blobs are opaque strings. -/
structure RQJobWrapper where
  job_key : String
  job_key_short : String
  fully_qualified_key : String
  created_at : AwareDT
  data : Option String
  description : String
  ended_at : Option AwareDT
  enqueued_at : Option AwareDT
  exc_info : Option String
  last_heartbeat : AwareDT
  meta : Option String
  origin : String
  result_ttl : Option String
  started_at : Option String
  status : Option String
  timeout : Nat
  worker_name : String
  rq_job_object : Option Unit
deriving DecidableEq, Repr

/-- `RQJobWrapper.new_with_defaults`: the freshly generated UUID and the
current UTC time are parameters (the only nondeterminism of the Python
constructor); everything else is fixed.  The function is pure by
construction — it takes no store state and returns only the record. -/
def new_with_defaults ( jobs_site_prefix uuid_string : String)
    (now_utc : AwareDT) : RQJobWrapper :=
  let new_job_key := jobs_site_prefix ++ "|" ++ uuid_string
  { job_key := new_job_key
    fully_qualified_key := "rq:job:" ++ new_job_key
    job_key_short := uuid_string
    created_at := now_utc
    description := ""
    data := none
    ended_at := none
    enqueued_at := none
    exc_info := none
    last_heartbeat := now_utc
    meta := none
    origin := "default"
    result_ttl := none
    started_at := none
    status := some "queued"
    timeout := 3600
    worker_name := ""
    rq_job_object := none }

/-! ## HTTP enqueue trigger
(BtuTaskSchedule.enqueue_for_next_available_worker,
btu_py/lib/structs/__init__.py) -/

/-- The configuration fields the trigger reads. -/
structure AppHttpConfig where
  webserver_token : String
  webserver_host_header : Option String

/-- The outbound POST request as assembled by the code. -/
structure HttpRequest where
  url : String
  authorization_header : String
  content_type_header : String
  host_header : Option String
  task_schedule_key : String
  timeout : Nat
deriving DecidableEq, Repr

/-- The remote endpoint's answer: status code and (decoded JSON) body. -/
structure HttpResponse where
  status_code : Nat
  body : String
deriving DecidableEq, Repr

/-- Modelled from the spec: `get_frappe_base_url` (btu_py/lib/utils.py, not
under src/) supplies the HTTP trigger base URL from configuration; it is a
plain parameter here.  `enqueue_for_next_available_worker` builds the POST
request (fixed 30-second timeout, bearer token, optional Host header,
`task_schedule_key` query parameter), sends it (`respond` stands for the
remote endpoint), succeeds on status 200 and otherwise raises `IOError`
carrying the response body. -/
def enqueue_for_next_available_worker (config : AppHttpConfig)
    (frappe_base_url : String) (schedule_id : String)
    (respond : HttpRequest → HttpResponse) :
    HttpRequest × Except String Unit :=
  let req : HttpRequest := {
    url := frappe_base_url ++
      "/api/method/btu.btu_api.endpoints.enqueue_for_next_available_worker"
    authorization_header := config.webserver_token
    content_type_header := "application/json"
    host_header := config.webserver_host_header
    task_schedule_key := schedule_id
    timeout := 30 }
  let response := respond req
  (req,
    if response.status_code = 200 then .ok ()
    else .error ("Unexpected response code from Frappe Framework web server: " ++
      response.body))



theorem splitCh_ne_nil (l : List Char) : splitCh l ≠ [] := by
  induction l with
  | nil => simp [splitCh]
  | cons c rest ih =>
    simp only [splitCh]
    split
    · simp
    · cases h : splitCh rest with
      | nil => simp
      | cons t ts => simp

theorem splitCh_cons_space (rest : List Char) :
    splitCh (' ' :: rest) = [] :: splitCh rest := by
  simp [splitCh]

theorem splitCh_cons_nonspace {c : Char} (hc : ¬ c = ' ') {rest t : List Char}
    {ts : List (List Char)} (h : splitCh rest = t :: ts) :
    splitCh (c :: rest) = (c :: t) :: ts := by
  simp [splitCh, if_neg hc, h]

theorem splitCh_append_space (a b : List Char) :
    splitCh (a ++ ' ' :: b) = splitCh a ++ splitCh b := by
  induction a with
  | nil => simp [splitCh]
  | cons c rest ih =>
    by_cases hc : c = ' '
    · subst hc
      simp only [List.cons_append, splitCh_cons_space, ih, List.cons_append]
    · cases h : splitCh rest with
      | nil => exact absurd h (splitCh_ne_nil rest)
      | cons t ts =>
        have h2 : splitCh (rest ++ ' ' :: b) = t :: (ts ++ splitCh b) := by
          rw [ih, h]; rfl
        rw [List.cons_append, splitCh_cons_nonspace hc h2,
          splitCh_cons_nonspace hc h, List.cons_append]

theorem splitCh_no_space (l : List Char) (h : ' ' ∉ l) : splitCh l = [l] := by
  induction l with
  | nil => rfl
  | cons c rest ih =>
    simp only [List.mem_cons, not_or] at h
    have hc : ¬ c = ' ' := fun hh => h.1 hh.symm
    rw [splitCh_cons_nonspace hc (ih h.2)]

theorem mem_splitCh_no_space (l : List Char) (t : List Char) (ht : t ∈ splitCh l) :
    ' ' ∉ t := by
  induction l generalizing t with
  | nil =>
    simp only [splitCh, List.mem_singleton] at ht
    subst ht; simp
  | cons c rest ih =>
    by_cases hc : c = ' '
    · subst hc
      rw [splitCh_cons_space] at ht
      rcases List.mem_cons.mp ht with h | h
      · subst h; simp
      · exact ih t h
    · cases h : splitCh rest with
      | nil => exact absurd h (splitCh_ne_nil rest)
      | cons u us =>
        rw [splitCh_cons_nonspace hc h] at ht
        rcases List.mem_cons.mp ht with h1 | h1
        · subst h1
          intro hmem
          rcases List.mem_cons.mp hmem with h2 | h2
          · exact hc h2.symm
          · exact ih u (by rw [h]; exact List.mem_cons_self u us) h2
        · exact ih t (by rw [h]; exact List.mem_cons.mpr (Or.inr h1))

theorem joinSp_splitCh (l : List Char) : joinSp (splitCh l) = l := by
  induction l with
  | nil => rfl
  | cons c rest ih =>
    by_cases hc : c = ' '
    · subst hc
      rw [splitCh_cons_space]
      cases h : splitCh rest with
      | nil => exact absurd h (splitCh_ne_nil rest)
      | cons t ts =>
        rw [h] at ih
        show [] ++ ' ' :: joinSp (t :: ts) = ' ' :: rest
        rw [ih]; rfl
    · cases h : splitCh rest with
      | nil => exact absurd h (splitCh_ne_nil rest)
      | cons t ts =>
        rw [h] at ih
        rw [splitCh_cons_nonspace hc h]
        cases ts with
        | nil =>
          show c :: t = c :: rest
          simp only [joinSp] at ih
          rw [ih]
        | cons u us =>
          show (c :: t) ++ ' ' :: joinSp (u :: us) = c :: rest
          simp only [joinSp] at ih
          rw [List.cons_append, ih]

/-- Splitting a single-space join of space-free tokens recovers the tokens. -/
theorem splitCh_joinSp (ts : List (List Char)) (hne : ts ≠ [])
    (hfree : ∀ t ∈ ts, ' ' ∉ t) : splitCh (joinSp ts) = ts := by
  induction ts with
  | nil => exact absurd rfl hne
  | cons t rest ih =>
    cases rest with
    | nil =>
      show splitCh t = [t]
      exact splitCh_no_space t (hfree t (List.mem_cons_self t []))
    | cons u us =>
      show splitCh (t ++ ' ' :: joinSp (u :: us)) = t :: u :: us
      rw [splitCh_append_space]
      rw [splitCh_no_space t (hfree t (List.mem_cons_self t (u :: us)))]
      rw [ih (by simp) (fun x hx => hfree x (List.mem_cons.mpr (Or.inr hx)))]
      rfl

theorem length_splitCh_append_left (a b : List Char) :
    (splitCh a).length ≤ (splitCh (a ++ b)).length := by
  induction a with
  | nil =>
    simp only [List.nil_append, splitCh, List.length_singleton]
    exact List.length_pos.mpr (splitCh_ne_nil b)
  | cons c rest ih =>
    by_cases hc : c = ' '
    · subst hc
      rw [List.cons_append, splitCh_cons_space, splitCh_cons_space]
      simp only [List.length_cons]
      omega
    · cases h1 : splitCh rest with
      | nil => exact absurd h1 (splitCh_ne_nil rest)
      | cons t1 ts1 =>
        cases h2 : splitCh (rest ++ b) with
        | nil => exact absurd h2 (splitCh_ne_nil (rest ++ b))
        | cons t2 ts2 =>
          rw [List.cons_append, splitCh_cons_nonspace hc h1,
            splitCh_cons_nonspace hc h2]
          rw [h1, h2] at ih
          simp only [List.length_cons] at ih ⊢
          omega

theorem length_splitCh_append_right (a b : List Char) :
    (splitCh b).length ≤ (splitCh (a ++ b)).length := by
  induction a with
  | nil => simp
  | cons c rest ih =>
    by_cases hc : c = ' '
    · subst hc
      rw [List.cons_append, splitCh_cons_space]
      simp only [List.length_cons]
      omega
    · cases h2 : splitCh (rest ++ b) with
      | nil => exact absurd h2 (splitCh_ne_nil (rest ++ b))
      | cons t2 ts2 =>
        rw [List.cons_append, splitCh_cons_nonspace hc h2]
        rw [h2] at ih
        simp only [List.length_cons] at ih ⊢
        omega

/-- `stripCh l` is an infix of `l`. -/
theorem stripCh_infix (l : List Char) : ∃ pre suf, l = pre ++ stripCh l ++ suf := by
  refine ⟨l.takeWhile isPySpace,
    (((l.dropWhile isPySpace).reverse).takeWhile isPySpace).reverse, ?_⟩
  have h2 : (l.dropWhile isPySpace).reverse =
      ((l.dropWhile isPySpace).reverse).takeWhile isPySpace ++
        ((l.dropWhile isPySpace).reverse).dropWhile isPySpace :=
    (List.takeWhile_append_dropWhile (p := isPySpace)
      (l := (l.dropWhile isPySpace).reverse)).symm
  have h3 : l.dropWhile isPySpace =
      stripCh l ++ (((l.dropWhile isPySpace).reverse).takeWhile isPySpace).reverse := by
    conv_lhs => rw [← List.reverse_reverse (l.dropWhile isPySpace)]
    rw [stripCh]
    conv_lhs => rw [h2]
    rw [List.reverse_append]
  calc l = l.takeWhile isPySpace ++ l.dropWhile isPySpace :=
        (List.takeWhile_append_dropWhile (p := isPySpace) (l := l)).symm
    _ = l.takeWhile isPySpace ++ (stripCh l ++
          (((l.dropWhile isPySpace).reverse).takeWhile isPySpace).reverse) := by rw [← h3]
    _ = l.takeWhile isPySpace ++ stripCh l ++
          (((l.dropWhile isPySpace).reverse).takeWhile isPySpace).reverse := by
          rw [List.append_assoc]

/-- The split of the stripped string never has more fields than the split
of the original string. -/
theorem length_splitCh_stripCh_le (l : List Char) :
    (splitCh (stripCh l)).length ≤ (splitCh l).length := by
  obtain ⟨pre, suf, h⟩ := stripCh_infix l
  calc (splitCh (stripCh l)).length
      ≤ (splitCh (stripCh l ++ suf)).length := length_splitCh_append_left _ _
    _ ≤ (splitCh (pre ++ (stripCh l ++ suf))).length := length_splitCh_append_right _ _
    _ = (splitCh l).length := by rw [← List.append_assoc, ← h]

theorem pySplitSpace_length_append_left (a b : String) :
    (pySplitSpace a).length ≤ (pySplitSpace (a ++ b)).length := by
  simp only [pySplitSpace, List.length_map]
  rw [show (a ++ b).data = a.data ++ b.data from String.data_append a b]
  exact length_splitCh_append_left a.data b.data

theorem data_prefix0 (s : String) :
    (("0 " : String) ++ s).data = ['0'] ++ ' ' :: s.data := by
  rw [String.data_append]
  rfl

theorem data_prefix0_suffix (s : String) :
    (("0 " : String) ++ s ++ " *").data = ['0'] ++ ' ' :: (s.data ++ ' ' :: ['*']) := by
  rw [String.data_append, String.data_append]
  simp

/-- Splitting `"0 " ++ s ++ " *"` yields `"0"`, then the raw split of `s`,
then `"*"` — regardless of whitespace oddities inside `s`. -/
theorem splitCh_case5 (s : String) :
    splitCh ((("0 " : String) ++ s ++ " *").data) =
      [['0']] ++ splitCh s.data ++ [['*']] := by
  rw [data_prefix0_suffix, splitCh_append_space, splitCh_append_space]
  rfl

theorem splitCh_case6 (s : String) :
    splitCh ((("0 " : String) ++ s).data) = [['0']] ++ splitCh s.data := by
  rw [data_prefix0, splitCh_append_space]
  rfl

/-- Whenever `cron_str_to_cron_str7` succeeds, the result splits into at
least 7 fields, so the positional reads in `from_string` are in range. -/
theorem from_string_vector_length (s c7 : String)
    (h : cron_str_to_cron_str7 s = .ok c7) :
    7 ≤ (pySplitSpace c7).length := by
  have hstrip : (splitCh (stripCh s.data)).length ≤ (splitCh s.data).length :=
    length_splitCh_stripCh_le s.data
  have hlen : (pySplitSpace (pyStrip s)).length = (splitCh (stripCh s.data)).length := by
    simp [pySplitSpace, pyStrip]
  simp only [cron_str_to_cron_str7] at h
  rw [hlen] at h
  generalize hn : (splitCh (stripCh s.data)).length = n at h hstrip
  rcases n with _|_|_|_|_|_|_|_|n
  · exact absurd h (by simp)
  · exact absurd h (by simp)
  · exact absurd h (by simp)
  · exact absurd h (by simp)
  · exact absurd h (by simp)
  · -- 5 elements: result is "0 " ++ s ++ " *"
    simp only [Except.ok.injEq] at h
    subst h
    simp only [pySplitSpace, List.length_map, splitCh_case5, List.length_append]
    simp only [List.length_singleton]
    omega
  · -- 6 elements: result is "0 " ++ s
    simp only [Except.ok.injEq] at h
    subst h
    simp only [pySplitSpace, List.length_map, splitCh_case6, List.length_append]
    simp only [List.length_singleton]
    omega
  · -- 7 elements: result is s itself
    simp only [Except.ok.injEq] at h
    subst h
    simp only [pySplitSpace, List.length_map]
    omega
  · exact absurd h (by simp)

theorem joinTokens_data (ts : List String) :
    (joinTokens ts).data = joinSp (ts.map String.data) := by
  induction ts with
  | nil => rfl
  | cons t rest ih =>
    cases rest with
    | nil => rfl
    | cons u us =>
      show (t ++ " " ++ joinTokens (u :: us)).data =
        t.data ++ ' ' :: joinSp ((u :: us).map String.data)
      rw [String.data_append, String.data_append, ← ih]
      simp

theorem joinSp_ne_nil (ts : List (List Char)) (hts : ts ≠ [])
    (hne : ∀ t ∈ ts, t ≠ []) : joinSp ts ≠ [] := by
  cases ts with
  | nil => exact absurd rfl hts
  | cons t rest =>
    cases rest with
    | nil => exact hne t (List.mem_cons_self t [])
    | cons u us =>
      show t ++ ' ' :: joinSp (u :: us) ≠ []
      simp

theorem joinSp_head? (ts : List (List Char)) (hts : ts ≠ [])
    (hne : ∀ t ∈ ts, t ≠ []) :
    (joinSp ts).head? = (ts.headD []).head? := by
  cases ts with
  | nil => exact absurd rfl hts
  | cons t rest =>
    cases rest with
    | nil => rfl
    | cons u us =>
      show (t ++ ' ' :: joinSp (u :: us)).head? = t.head?
      cases t with
      | nil => exact absurd rfl (hne [] (List.mem_cons_self [] (u :: us)))
      | cons c cs => rfl

theorem joinSp_getLast? (ts : List (List Char)) (hts : ts ≠ [])
    (hne : ∀ t ∈ ts, t ≠ []) :
    (joinSp ts).getLast? = (ts.getLastD []).getLast? := by
  induction ts with
  | nil => exact absurd rfl hts
  | cons t rest ih =>
    cases rest with
    | nil => rfl
    | cons u us =>
      show (t ++ ' ' :: joinSp (u :: us)).getLast? = ((t :: u :: us).getLastD []).getLast?
      have hjoin : joinSp (u :: us) ≠ [] :=
        joinSp_ne_nil _ (by simp) (fun x hx => hne x (List.mem_cons.mpr (Or.inr hx)))
      rw [List.getLast?_append_of_ne_nil t (by simp)]
      have h2 : (' ' :: joinSp (u :: us)).getLast? = (joinSp (u :: us)).getLast? := by
        rw [show ' ' :: joinSp (u :: us) = [' '] ++ joinSp (u :: us) from rfl]
        exact List.getLast?_append_of_ne_nil [' '] hjoin
      rw [h2, ih (by simp) (fun x hx => hne x (List.mem_cons.mpr (Or.inr hx)))]
      rfl

theorem dropWhile_eq_self_of_head? {p : Char → Bool} {l : List Char}
    (h : ∀ c, l.head? = some c → p c = false) : l.dropWhile p = l := by
  cases l with
  | nil => rfl
  | cons c rest =>
    rw [List.dropWhile_cons, h c rfl]
    simp

theorem stripCh_eq_self {l : List Char}
    (hhead : ∀ c, l.head? = some c → isPySpace c = false)
    (hlast : ∀ c, l.getLast? = some c → isPySpace c = false) :
    stripCh l = l := by
  unfold stripCh
  rw [dropWhile_eq_self_of_head? hhead]
  rw [dropWhile_eq_self_of_head? (fun c hc => hlast c (by rwa [List.head?_reverse] at hc))]
  exact List.reverse_reverse l

/-- For a canonical cron string, stripping is a no-op and splitting
recovers exactly the fields. -/
theorem canonical_strip_split (ts : List String) (hts : ts ≠ [])
    (hcan : ∀ t ∈ ts, CanonicalField t) :
    stripCh (joinTokens ts).data = (joinTokens ts).data ∧
      splitCh (joinTokens ts).data = ts.map String.data := by
  have hne : ∀ t ∈ ts.map String.data, t ≠ [] := by
    intro t ht
    obtain ⟨u, hu, rfl⟩ := List.mem_map.mp ht
    exact (hcan u hu).1
  have hfree : ∀ t ∈ ts.map String.data, ' ' ∉ t := by
    intro t ht hsp
    obtain ⟨u, hu, rfl⟩ := List.mem_map.mp ht
    have := (hcan u hu).2 ' ' hsp
    simp [isPySpace] at this
  have htsm : ts.map String.data ≠ [] := by
    intro h; exact hts (List.map_eq_nil_iff.mp h)
  constructor
  · rw [joinTokens_data]
    apply stripCh_eq_self
    · intro c hc
      rw [joinSp_head? _ htsm hne] at hc
      cases ts with
      | nil => exact absurd rfl hts
      | cons t rest =>
        have : c ∈ t.data := by
          simp only [List.map_cons, List.headD_cons] at hc
          exact List.mem_of_mem_head? hc
        exact (hcan t (List.mem_cons_self t rest)).2 c this
    · intro c hc
      rw [joinSp_getLast? _ htsm hne] at hc
      have hlast : (ts.map String.data).getLastD [] =
          (ts.getLastD "").data := by
        cases ts with
        | nil => exact absurd rfl hts
        | cons t rest =>
          rw [List.getLastD_eq_getLast?, List.getLastD_eq_getLast?]
          rw [List.getLast?_map]
          cases h : (t :: rest).getLast? with
          | none => simp at h
          | some u => rfl
      rw [hlast] at hc
      have hmem : ts.getLastD "" ∈ ts := by
        cases ts with
        | nil => exact absurd rfl hts
        | cons t rest =>
          rw [List.getLastD_eq_getLast?]
          cases h : (t :: rest).getLast? with
          | none => simp at h
          | some u =>
            simp only [Option.getD_some]
            exact List.mem_of_mem_getLast? (by simp [h])
      exact (hcan _ hmem).2 c (List.mem_of_mem_getLast? hc)
  · rw [joinTokens_data]
    exact splitCh_joinSp _ htsm hfree

theorem mk_data (s : String) : String.mk s.data = s := rfl

theorem canonical_count (ts : List String) (hts : ts ≠ [])
    (hcan : ∀ t ∈ ts, CanonicalField t) :
    (pySplitSpace (pyStrip (joinTokens ts))).length = ts.length := by
  obtain ⟨hstrip, hsplit⟩ := canonical_strip_split ts hts hcan
  simp [pySplitSpace, pyStrip, hstrip, hsplit]

/-- Parsing the canonical join of 5 fields: second defaults to `0`, the five
fields land on minute..day_of_week, year is wildcarded. -/
theorem from_string_canonical5 (a b c d e : String)
    (hcan : ∀ t ∈ [a, b, c, d, e], CanonicalField t) :
    CronStruct.from_string (joinTokens [a, b, c, d, e]) =
      .ok ⟨some "0", nonwildcard_or_none a, nonwildcard_or_none b,
        nonwildcard_or_none c, nonwildcard_or_none d, nonwildcard_or_none e,
        none⟩ := by
  obtain ⟨hstrip, hsplit⟩ := canonical_strip_split [a, b, c, d, e] (by simp) hcan
  have hcount : (pySplitSpace (pyStrip (joinTokens [a, b, c, d, e]))).length = 5 := by
    rw [canonical_count _ (by simp) hcan]; rfl
  have hc7 : cron_str_to_cron_str7 (joinTokens [a, b, c, d, e]) =
      .ok ("0 " ++ joinTokens [a, b, c, d, e] ++ " *") := by
    simp only [cron_str_to_cron_str7]
    rw [hcount]
  have hvec : pySplitSpace ("0 " ++ joinTokens [a, b, c, d, e] ++ " *") =
      ["0", a, b, c, d, e, "*"] := by
    simp only [pySplitSpace, splitCh_case5, hsplit]
    simp [mk_data]
  simp only [CronStruct.from_string, hc7, hvec]
  norm_num
  constructor <;> decide

/-- Parsing the canonical join of 6 fields: the 5-field interpretation plus
the sixth field as year, with second defaulted to `0`. -/
theorem from_string_canonical6 (a b c d e f : String)
    (hcan : ∀ t ∈ [a, b, c, d, e, f], CanonicalField t) :
    CronStruct.from_string (joinTokens [a, b, c, d, e, f]) =
      .ok ⟨some "0", nonwildcard_or_none a, nonwildcard_or_none b,
        nonwildcard_or_none c, nonwildcard_or_none d, nonwildcard_or_none e,
        nonwildcard_or_none f⟩ := by
  obtain ⟨hstrip, hsplit⟩ := canonical_strip_split [a, b, c, d, e, f] (by simp) hcan
  have hcount : (pySplitSpace (pyStrip (joinTokens [a, b, c, d, e, f]))).length = 6 := by
    rw [canonical_count _ (by simp) hcan]; rfl
  have hc7 : cron_str_to_cron_str7 (joinTokens [a, b, c, d, e, f]) =
      .ok ("0 " ++ joinTokens [a, b, c, d, e, f]) := by
    simp only [cron_str_to_cron_str7]
    rw [hcount]
  have hvec : pySplitSpace ("0 " ++ joinTokens [a, b, c, d, e, f]) =
      ["0", a, b, c, d, e, f] := by
    simp only [pySplitSpace, splitCh_case6, hsplit]
    simp [mk_data]
  simp only [CronStruct.from_string, hc7, hvec]
  norm_num
  decide

/-- Parsing the canonical join of 7 fields reads them positionally. -/
theorem from_string_canonical7 (a b c d e f g : String)
    (hcan : ∀ t ∈ [a, b, c, d, e, f, g], CanonicalField t) :
    CronStruct.from_string (joinTokens [a, b, c, d, e, f, g]) =
      .ok ⟨nonwildcard_or_none a, nonwildcard_or_none b, nonwildcard_or_none c,
        nonwildcard_or_none d, nonwildcard_or_none e, nonwildcard_or_none f,
        nonwildcard_or_none g⟩ := by
  obtain ⟨hstrip, hsplit⟩ := canonical_strip_split [a, b, c, d, e, f, g] (by simp) hcan
  have hcount : (pySplitSpace (pyStrip (joinTokens [a, b, c, d, e, f, g]))).length = 7 := by
    rw [canonical_count _ (by simp) hcan]; rfl
  have hc7 : cron_str_to_cron_str7 (joinTokens [a, b, c, d, e, f, g]) =
      .ok (joinTokens [a, b, c, d, e, f, g]) := by
    simp only [cron_str_to_cron_str7]
    rw [hcount]
  have hvec : pySplitSpace (joinTokens [a, b, c, d, e, f, g]) =
      [a, b, c, d, e, f, g] := by
    simp only [pySplitSpace, hsplit]
    simp [mk_data]
  simp only [CronStruct.from_string, hc7, hvec]
  norm_num

theorem string_data_ext {s t : String} (h : s.data = t.data) : s = t := by
  cases s; cases t; exact congrArg String.mk h

theorem data_space_lit : (" " : String).data = [' '] := rfl

/-- `to_string7` is the single-space join of the seven rendered fields. -/
theorem to_string7_eq_joinTokens (c : CronStruct) :
    c.to_string7 = joinTokens [value_or_wildcard c.second,
      value_or_wildcard c.minute, value_or_wildcard c.hour,
      value_or_wildcard c.day_of_month, value_or_wildcard c.month,
      value_or_wildcard c.day_of_week, value_or_wildcard c.year] := by
  apply string_data_ext
  rw [joinTokens_data]
  simp only [CronStruct.to_string7, String.data_append, List.map_cons, List.map_nil,
    data_space_lit, joinSp]
  simp [List.append_assoc]

theorem vw_nw_canonical (t : String) (h : CanonicalField t) :
    CanonicalField (value_or_wildcard (nonwildcard_or_none t)) := by
  by_cases h1 : t = "*"
  · subst h1
    show CanonicalField (value_or_wildcard none)
    decide
  · rw [nonwildcard_or_none, if_neg h1]
    have h2 : ¬ t = "" := by
      intro hh; subst hh; exact h.1 rfl
    rw [value_or_wildcard, if_neg h2]
    exact h

theorem nw_vw_nw (t : String) (hne : t.data ≠ []) :
    nonwildcard_or_none (value_or_wildcard (nonwildcard_or_none t)) =
      nonwildcard_or_none t := by
  by_cases h1 : t = "*"
  · subst h1; decide
  · have h2 : ¬ t = "" := by
      intro hh; subst hh; exact hne rfl
    have hv : value_or_wildcard (nonwildcard_or_none t) = t := by
      rw [nonwildcard_or_none, if_neg h1, value_or_wildcard, if_neg h2]
    rw [hv]

theorem cf_zero : CanonicalField "0" := by decide

theorem cf_star : CanonicalField "*" := by decide

theorem vw_some_zero : value_or_wildcard (some "0") = "0" := by decide

theorem vw_none : value_or_wildcard none = "*" := rfl

theorem nw_zero : nonwildcard_or_none "0" = some "0" := by decide

theorem nw_star : nonwildcard_or_none "*" = none := by decide

/-- Re-parsing the rendering of a 5-field parse result reproduces it. -/
theorem roundtrip5 (a b c d e : String)
    (hcan : ∀ t ∈ [a, b, c, d, e], CanonicalField t) :
    CronStruct.from_string
        ((⟨some "0", nonwildcard_or_none a, nonwildcard_or_none b,
          nonwildcard_or_none c, nonwildcard_or_none d, nonwildcard_or_none e,
          none⟩ : CronStruct).to_string7) =
      .ok ⟨some "0", nonwildcard_or_none a, nonwildcard_or_none b,
        nonwildcard_or_none c, nonwildcard_or_none d, nonwildcard_or_none e,
        none⟩ := by
  rw [to_string7_eq_joinTokens]
  simp only [vw_some_zero, vw_none]
  rw [from_string_canonical7 _ _ _ _ _ _ _ (by
    intro t ht
    simp only [List.mem_cons, List.not_mem_nil, or_false] at ht
    rcases ht with rfl | rfl | rfl | rfl | rfl | rfl | rfl
    · exact cf_zero
    · exact vw_nw_canonical a (hcan a (by simp))
    · exact vw_nw_canonical b (hcan b (by simp))
    · exact vw_nw_canonical c (hcan c (by simp))
    · exact vw_nw_canonical d (hcan d (by simp))
    · exact vw_nw_canonical e (hcan e (by simp))
    · exact cf_star)]
  rw [nw_zero, nw_star,
    nw_vw_nw a (hcan a (by simp)).1, nw_vw_nw b (hcan b (by simp)).1,
    nw_vw_nw c (hcan c (by simp)).1, nw_vw_nw d (hcan d (by simp)).1,
    nw_vw_nw e (hcan e (by simp)).1]

/-- Re-parsing the rendering of a 6-field parse result reproduces it. -/
theorem roundtrip6 (a b c d e f : String)
    (hcan : ∀ t ∈ [a, b, c, d, e, f], CanonicalField t) :
    CronStruct.from_string
        ((⟨some "0", nonwildcard_or_none a, nonwildcard_or_none b,
          nonwildcard_or_none c, nonwildcard_or_none d, nonwildcard_or_none e,
          nonwildcard_or_none f⟩ : CronStruct).to_string7) =
      .ok ⟨some "0", nonwildcard_or_none a, nonwildcard_or_none b,
        nonwildcard_or_none c, nonwildcard_or_none d, nonwildcard_or_none e,
        nonwildcard_or_none f⟩ := by
  rw [to_string7_eq_joinTokens]
  simp only [vw_some_zero]
  rw [from_string_canonical7 _ _ _ _ _ _ _ (by
    intro t ht
    simp only [List.mem_cons, List.not_mem_nil, or_false] at ht
    rcases ht with rfl | rfl | rfl | rfl | rfl | rfl | rfl
    · exact cf_zero
    · exact vw_nw_canonical a (hcan a (by simp))
    · exact vw_nw_canonical b (hcan b (by simp))
    · exact vw_nw_canonical c (hcan c (by simp))
    · exact vw_nw_canonical d (hcan d (by simp))
    · exact vw_nw_canonical e (hcan e (by simp))
    · exact vw_nw_canonical f (hcan f (by simp)))]
  rw [nw_zero,
    nw_vw_nw a (hcan a (by simp)).1, nw_vw_nw b (hcan b (by simp)).1,
    nw_vw_nw c (hcan c (by simp)).1, nw_vw_nw d (hcan d (by simp)).1,
    nw_vw_nw e (hcan e (by simp)).1, nw_vw_nw f (hcan f (by simp)).1]

/-- Re-parsing the rendering of a 7-field parse result reproduces it. -/
theorem roundtrip7 (a b c d e f g : String)
    (hcan : ∀ t ∈ [a, b, c, d, e, f, g], CanonicalField t) :
    CronStruct.from_string
        ((⟨nonwildcard_or_none a, nonwildcard_or_none b, nonwildcard_or_none c,
          nonwildcard_or_none d, nonwildcard_or_none e, nonwildcard_or_none f,
          nonwildcard_or_none g⟩ : CronStruct).to_string7) =
      .ok ⟨nonwildcard_or_none a, nonwildcard_or_none b, nonwildcard_or_none c,
        nonwildcard_or_none d, nonwildcard_or_none e, nonwildcard_or_none f,
        nonwildcard_or_none g⟩ := by
  rw [to_string7_eq_joinTokens]
  rw [from_string_canonical7 _ _ _ _ _ _ _ (by
    intro t ht
    simp only [List.mem_cons, List.not_mem_nil, or_false] at ht
    rcases ht with rfl | rfl | rfl | rfl | rfl | rfl | rfl
    · exact vw_nw_canonical a (hcan a (by simp))
    · exact vw_nw_canonical b (hcan b (by simp))
    · exact vw_nw_canonical c (hcan c (by simp))
    · exact vw_nw_canonical d (hcan d (by simp))
    · exact vw_nw_canonical e (hcan e (by simp))
    · exact vw_nw_canonical f (hcan f (by simp))
    · exact vw_nw_canonical g (hcan g (by simp)))]
  rw [nw_vw_nw a (hcan a (by simp)).1, nw_vw_nw b (hcan b (by simp)).1,
    nw_vw_nw c (hcan c (by simp)).1, nw_vw_nw d (hcan d (by simp)).1,
    nw_vw_nw e (hcan e (by simp)).1, nw_vw_nw f (hcan f (by simp)).1,
    nw_vw_nw g (hcan g (by simp)).1]

theorem nw_space_free (x : String) (hx : ' ' ∉ x.data) :
    FieldSpaceFree (nonwildcard_or_none x) := by
  intro v hv
  by_cases h : x = "*"
  · simp [nonwildcard_or_none, h] at hv
  · simp only [nonwildcard_or_none, if_neg h, Option.some.injEq] at hv
    subst hv; exact hx

theorem vw_space_free (f : Option String) (hf : FieldSpaceFree f) :
    ' ' ∉ (value_or_wildcard f).data := by
  cases f with
  | none => decide
  | some v =>
    by_cases h : v = ""
    · rw [value_or_wildcard, if_pos h]; decide
    · rw [value_or_wildcard, if_neg h]; exact hf v rfl

theorem pySplitSpace_elem_space_free (s : String) (x : String)
    (hx : x ∈ pySplitSpace s) : ' ' ∉ x.data := by
  obtain ⟨t, ht, rfl⟩ := List.mem_map.mp hx
  exact mem_splitCh_no_space _ t ht

/-- Every field of a parse result is space-free. -/
theorem parse_fields_space_free (s : String) (cs : CronStruct)
    (h : CronStruct.from_string s = .ok cs) :
    FieldSpaceFree cs.second ∧ FieldSpaceFree cs.minute ∧
      FieldSpaceFree cs.hour ∧ FieldSpaceFree cs.day_of_month ∧
      FieldSpaceFree cs.month ∧ FieldSpaceFree cs.day_of_week ∧
      FieldSpaceFree cs.year := by
  unfold CronStruct.from_string at h
  cases hc : cron_str_to_cron_str7 s with
  | error e => rw [hc] at h; cases h
  | ok c7 =>
    rw [hc] at h
    simp only at h
    split at h
    case isTrue hb =>
      simp only [Except.ok.injEq] at h
      subst h
      refine ⟨?_, ?_, ?_, ?_, ?_, ?_, ?_⟩ <;>
        exact nw_space_free _ (pySplitSpace_elem_space_free c7 _ (List.getElem_mem _))
    case isFalse => cases h

/-- The 7-field rendering of any parse result splits back into exactly 7
fields. -/
theorem to_string7_count (cs : CronStruct)
    (h : FieldSpaceFree cs.second ∧ FieldSpaceFree cs.minute ∧
      FieldSpaceFree cs.hour ∧ FieldSpaceFree cs.day_of_month ∧
      FieldSpaceFree cs.month ∧ FieldSpaceFree cs.day_of_week ∧
      FieldSpaceFree cs.year) :
    (pySplitSpace cs.to_string7).length = 7 := by
  obtain ⟨h1, h2, h3, h4, h5, h6, h7⟩ := h
  rw [to_string7_eq_joinTokens]
  simp only [pySplitSpace, joinTokens_data]
  rw [splitCh_joinSp _ (by simp)]
  · simp
  · intro t ht
    simp only [List.map_cons, List.map_nil, List.mem_cons, List.not_mem_nil,
      or_false] at ht
    rcases ht with rfl | rfl | rfl | rfl | rfl | rfl | rfl
    · exact vw_space_free _ h1
    · exact vw_space_free _ h2
    · exact vw_space_free _ h3
    · exact vw_space_free _ h4
    · exact vw_space_free _ h5
    · exact vw_space_free _ h6
    · exact vw_space_free _ h7

/-! ## Claim theorems -/

/-- C2, counterexample: the round-trip law fails as stated.  The input
`" 1 2 3 4 5"` has 5 fields by the parser's own count (so it is accepted),
yet re-parsing its 7-field rendering does not reproduce the parse: the
leading space shifts the positional reads, leaving an empty minute field
that renders as `*` and re-parses as unset. -/
theorem btu_C2_counterexample :
    (pySplitSpace (pyStrip " 1 2 3 4 5")).length = 5 ∧
      (CronStruct.from_string " 1 2 3 4 5").bind
          (fun cs => CronStruct.from_string cs.to_string7) ≠
        CronStruct.from_string " 1 2 3 4 5" := by
  constructor
  · decide
  · decide

/-- C2 (amended): for every accepted cron string, `to_string7` of the parse
splits into exactly 7 fields; and for every cron string in canonical
whitespace form (the single-space join of 5, 6 or 7 nonempty,
whitespace-free fields), parsing succeeds and re-parsing the 7-field
rendering is field-wise equal to the original parse. -/
theorem btu_C2_roundtrip :
    (∀ (s : String) (cs : CronStruct), CronStruct.from_string s = .ok cs →
      (pySplitSpace cs.to_string7).length = 7) ∧
    (∀ ts : List String, (ts.length = 5 ∨ ts.length = 6 ∨ ts.length = 7) →
      (∀ t ∈ ts, CanonicalField t) →
      ∃ cs, CronStruct.from_string (joinTokens ts) = .ok cs ∧
        CronStruct.from_string cs.to_string7 = .ok cs) := by
  constructor
  · intro s cs h
    exact to_string7_count cs (parse_fields_space_free s cs h)
  · intro ts hlen hcan
    rcases ts with _ | ⟨a, _ | ⟨b, _ | ⟨c, _ | ⟨d, _ | ⟨e, _ | ⟨f, _ | ⟨g, _ | ⟨h8, rest⟩⟩⟩⟩⟩⟩⟩⟩
    · simp at hlen
    · simp at hlen
    · simp at hlen
    · simp at hlen
    · simp at hlen
    · exact ⟨_, from_string_canonical5 a b c d e hcan, roundtrip5 a b c d e hcan⟩
    · exact ⟨_, from_string_canonical6 a b c d e f hcan, roundtrip6 a b c d e f hcan⟩
    · exact ⟨_, from_string_canonical7 a b c d e f g hcan,
        roundtrip7 a b c d e f g hcan⟩
    · simp only [List.length_cons] at hlen
      omega

/-- Witness for C2: both parts of the round-trip theorem at the concrete
schedule string `*/30 * * * *`. -/
theorem btu_C2_witness :
    (pySplitSpace
        (CronStruct.to_string7
          ⟨some "0", some "*/30", none, none, none, none, none⟩)).length = 7 ∧
    ∃ cs, CronStruct.from_string (joinTokens ["*/30", "*", "*", "*", "*"]) = .ok cs ∧
      CronStruct.from_string cs.to_string7 = .ok cs :=
  ⟨btu_C2_roundtrip.1 "*/30 * * * *"
      ⟨some "0", some "*/30", none, none, none, none, none⟩ (by decide),
    btu_C2_roundtrip.2 ["*/30", "*", "*", "*", "*"] (by simp) (by decide)⟩

/-- C3: parsing fails with the `ValueError` message reporting the actual
element count exactly when the stripped input does not split into 5, 6 or
7 fields; with 5, 6 or 7 fields it succeeds (no `ValueError`, and the
positional reads are in range, so no `IndexError` either). -/
theorem btu_C3_token_count (s : String) :
    ((pySplitSpace (pyStrip s)).length ∉ ([5, 6, 7] : List Nat) →
      CronStruct.from_string s =
          .error (wrong_quantity_message (pySplitSpace (pyStrip s)).length s) ∧
        ∃ pre suf, wrong_quantity_message (pySplitSpace (pyStrip s)).length s =
          pre ++ (toString (pySplitSpace (pyStrip s)).length ++ suf)) ∧
    ((pySplitSpace (pyStrip s)).length ∈ ([5, 6, 7] : List Nat) →
      ∃ cs, CronStruct.from_string s = .ok cs) := by
  constructor
  · intro hn
    simp only [List.mem_cons, List.not_mem_nil, or_false, not_or] at hn
    constructor
    · have hc : cron_str_to_cron_str7 s =
          .error (wrong_quantity_message (pySplitSpace (pyStrip s)).length s) := by
        simp only [cron_str_to_cron_str7]
        generalize (pySplitSpace (pyStrip s)).length = n at hn ⊢
        rcases n with _|_|_|_|_|_|_|_|n
        · rfl
        · rfl
        · rfl
        · rfl
        · rfl
        · exact absurd rfl hn.1
        · exact absurd rfl hn.2.1
        · exact absurd rfl hn.2.2
        · rfl
      simp [CronStruct.from_string, hc]
    · exact ⟨"Wrong quantity of elements (",
        ") found in cron_expression_string " ++ s, rfl⟩
  · intro hn
    have hok : ∃ c7, cron_str_to_cron_str7 s = .ok c7 := by
      simp only [cron_str_to_cron_str7]
      simp only [List.mem_cons, List.not_mem_nil, or_false] at hn
      rcases hn with h5 | h6 | h7
      · rw [h5]; exact ⟨_, rfl⟩
      · rw [h6]; exact ⟨_, rfl⟩
      · rw [h7]; exact ⟨_, rfl⟩
    obtain ⟨c7, hc7⟩ := hok
    simp only [CronStruct.from_string, hc7]
    rw [dif_pos (from_string_vector_length s c7 hc7)]
    exact ⟨_, rfl⟩

/-- Witness for C3: the 3-field input `"a b c"` is rejected with the
count-reporting message, and the 5-field input `"1 2 3 4 5"` parses. -/
theorem btu_C3_witness :
    ((pySplitSpace (pyStrip "a b c")).length ∉ ([5, 6, 7] : List Nat) ∧
      CronStruct.from_string "a b c" =
        .error (wrong_quantity_message (pySplitSpace (pyStrip "a b c")).length "a b c")) ∧
    ((pySplitSpace (pyStrip "1 2 3 4 5")).length ∈ ([5, 6, 7] : List Nat) ∧
      ∃ cs, CronStruct.from_string "1 2 3 4 5" = .ok cs) :=
  ⟨⟨by decide, ((btu_C3_token_count "a b c").1 (by decide)).1⟩,
    ⟨by decide, (btu_C3_token_count "1 2 3 4 5").2 (by decide)⟩⟩

/-- C8, counterexample: `" 1 2 3 4 5"` is a 5-field input by the parser's
own count, yet its parse has `year = some "5"` where the claim requires the
year of every 5-field input to be unset (the leading space shifts every
positional read by one). -/
theorem btu_C8_counterexample :
    (pySplitSpace (pyStrip " 1 2 3 4 5")).length = 5 ∧
      Except.map CronStruct.year (CronStruct.from_string " 1 2 3 4 5") =
        .ok (some "5") := by
  constructor
  · decide
  · decide

/-- C8 (amended): for 5-field inputs in canonical whitespace form, the
parse has second `"0"`, the five fields on minute..day_of_week in order
(a literal `*` stored as the unset/wildcard value), and year unset; adding
a canonical sixth field yields the same plus that field as year. -/
theorem btu_C8_field_mapping :
    ∀ a b c d e : String, (∀ t ∈ [a, b, c, d, e], CanonicalField t) →
      (CronStruct.from_string (joinTokens [a, b, c, d, e]) =
        .ok ⟨some "0", nonwildcard_or_none a, nonwildcard_or_none b,
          nonwildcard_or_none c, nonwildcard_or_none d, nonwildcard_or_none e,
          none⟩) ∧
      ∀ f : String, CanonicalField f →
        CronStruct.from_string (joinTokens [a, b, c, d, e, f]) =
          .ok ⟨some "0", nonwildcard_or_none a, nonwildcard_or_none b,
            nonwildcard_or_none c, nonwildcard_or_none d, nonwildcard_or_none e,
            nonwildcard_or_none f⟩ := by
  intro a b c d e hcan
  refine ⟨from_string_canonical5 a b c d e hcan, ?_⟩
  intro f hf
  apply from_string_canonical6
  intro t ht
  simp only [List.mem_cons, List.not_mem_nil, or_false] at ht
  rcases ht with rfl | rfl | rfl | rfl | rfl | rfl
  · exact hcan t (by simp)
  · exact hcan t (by simp)
  · exact hcan t (by simp)
  · exact hcan t (by simp)
  · exact hcan t (by simp)
  · exact hf

/-- Witness for C8: the concrete 5-field input `"30 9 1 6 2"` and its
6-field extension by the year `"2030"`. -/
theorem btu_C8_witness :
    (CronStruct.from_string (joinTokens ["30", "9", "1", "6", "2"]) =
      .ok ⟨some "0", nonwildcard_or_none "30", nonwildcard_or_none "9",
        nonwildcard_or_none "1", nonwildcard_or_none "6", nonwildcard_or_none "2",
        none⟩) ∧
    CronStruct.from_string (joinTokens ["30", "9", "1", "6", "2", "2030"]) =
      .ok ⟨some "0", nonwildcard_or_none "30", nonwildcard_or_none "9",
        nonwildcard_or_none "1", nonwildcard_or_none "6", nonwildcard_or_none "2",
        nonwildcard_or_none "2030"⟩ :=
  ⟨(btu_C8_field_mapping "30" "9" "1" "6" "2" (by decide)).1,
    (btu_C8_field_mapping "30" "9" "1" "6" "2" (by decide)).2 "2030" (by decide)⟩

theorem scenario3_go_eq_map (tz : TzModel) (acc l : List AwareDT) :
    scenario3_go tz acc l =
      acc ++ l.map (fun d =>
        astimezone_utc (localize_datetime (make_datetime_naive d) tz)) := by
  induction l generalizing acc with
  | nil => simp [scenario3_go]
  | cons d rest ih =>
    simp only [scenario3_go, ih, List.map_cons]
    simp

/-- The local-correction branch of the evaluator: with a specific hour and
`cron_is_utc = false`, the result is the element-wise image of the raw
calculator output under strip-marker / re-localize / convert-to-UTC. -/
theorem tz_cron_local_branch (calcF : String → AwareDT → Nat → List AwareDT)
    (cfgTz : TzModel) (now : AwareDT) (s : String) (tzOpt : Option TzModel)
    (fromOpt : Option AwareDT) (n : Nat) (cs : CronStruct)
    (hp : CronStruct.from_string s = .ok cs)
    (hh : ¬ (cs.hour = none ∨ cs.hour = some "*")) :
    tz_cron_to_utc_datetimes calcF cfgTz now s tzOpt fromOpt n false =
      .ok ((calcF cs.to_string (fromOpt.getD now) n).map (fun d =>
        astimezone_utc (localize_datetime (make_datetime_naive d)
          (tzOpt.getD cfgTz)))) := by
  cases tzOpt <;> cases fromOpt <;>
    simp [tz_cron_to_utc_datetimes, hp, if_neg hh, scenario3_go_eq_map]

/-- C4: if the normalized schedule's hour is wildcard, or the query is
flagged already-UTC, the evaluator returns exactly the raw
recurrence-calculator output, unmodified. -/
theorem btu_C4_passthrough (calcF : String → AwareDT → Nat → List AwareDT)
    (cfgTz : TzModel) (now : AwareDT) (s : String) (tzOpt : Option TzModel)
    (fromOpt : Option AwareDT) (n : Nat) (utc : Bool) (cs : CronStruct)
    (hp : CronStruct.from_string s = .ok cs)
    (h : cs.hour = none ∨ utc = true) :
    tz_cron_to_utc_datetimes calcF cfgTz now s tzOpt fromOpt n utc =
      .ok (calcF cs.to_string (fromOpt.getD now) n) := by
  rcases h with h | h
  · cases tzOpt <;> cases fromOpt <;>
      simp [tz_cron_to_utc_datetimes, hp, h]
  · subst h
    by_cases hw : cs.hour = none ∨ cs.hour = some "*"
    · cases tzOpt <;> cases fromOpt <;>
        simp [tz_cron_to_utc_datetimes, hp, if_pos hw]
    · cases tzOpt <;> cases fromOpt <;>
        simp [tz_cron_to_utc_datetimes, hp, if_neg hw]

/-- Witness for C4: the wildcard-hour schedule `*/30 * * * *` passes the
calculator output through unmodified. -/
theorem btu_C4_witness :
    tz_cron_to_utc_datetimes (fun _ _ _ => [⟨1000, 0⟩])
        ⟨fun _ => -28800, fun _ => -28800⟩ ⟨0, 0⟩ "*/30 * * * *"
        none none 1 false =
      .ok [⟨1000, 0⟩] :=
  btu_C4_passthrough (fun _ _ _ => [⟨1000, 0⟩])
    ⟨fun _ => -28800, fun _ => -28800⟩ ⟨0, 0⟩ "*/30 * * * *" none none 1 false
    ⟨some "0", some "*/30", none, none, none, none, none⟩ (by decide)
    (Or.inl rfl)

/-- C5: with `already_utc = false` and a specific hour, each
calculator-produced instant is stripped to a naive reading, reinterpreted
in the effective timezone, and converted to UTC; the result is the
element-wise image of the calculator output, in order. -/
theorem btu_C5_local_correction (calcF : String → AwareDT → Nat → List AwareDT)
    (cfgTz : TzModel) (now : AwareDT) (s : String) (tzOpt : Option TzModel)
    (fromOpt : Option AwareDT) (n : Nat) (cs : CronStruct)
    (hp : CronStruct.from_string s = .ok cs)
    (hh : cs.hour ≠ none) (hh2 : cs.hour ≠ some "*") :
    tz_cron_to_utc_datetimes calcF cfgTz now s tzOpt fromOpt n false =
      .ok ((calcF cs.to_string (fromOpt.getD now) n).map (fun d =>
        astimezone_utc (localize_datetime (make_datetime_naive d)
          (tzOpt.getD cfgTz)))) :=
  tz_cron_local_branch calcF cfgTz now s tzOpt fromOpt n cs hp
    (by rintro (h | h); exact hh h; exact hh2 h)

/-- Witness for C5: local 9 AM (`0 9 * * *`) in a fixed UTC-8 zone; the raw
9:00 reading (32400 s) is corrected to 17:00 UTC (61200 s). -/
theorem btu_C5_witness :
    tz_cron_to_utc_datetimes (fun _ _ _ => [⟨32400, 0⟩])
        ⟨fun _ => 0, fun _ => 0⟩ ⟨0, 0⟩ "0 9 * * *"
        (some ⟨fun _ => -28800, fun _ => -28800⟩) none 1 false =
      .ok [⟨61200, 0⟩] := by
  have h := btu_C5_local_correction (fun _ _ _ => [⟨32400, 0⟩])
    ⟨fun _ => 0, fun _ => 0⟩ ⟨0, 0⟩ "0 9 * * *"
    (some ⟨fun _ => -28800, fun _ => -28800⟩) none 1
    ⟨some "0", some "0", some "9", none, none, none, none⟩ (by decide)
    (by decide) (by decide)
  rw [h]
  decide

/-- C10 (implicit): in the local-correction branch, converting any returned
instant back into the effective timezone restores the naive wall-clock
reading of the corresponding raw calculator output, provided that reading
names an unambiguous, existing local time (the zone's offset at the
corrected instant agrees with the offset assigned to the local reading). -/
theorem btu_C10_wallclock (calcF : String → AwareDT → Nat → List AwareDT)
    (cfgTz tz : TzModel) (now : AwareDT) (s : String) (tzOpt : Option TzModel)
    (fromOpt : Option AwareDT) (n : Nat) (cs : CronStruct) (raw : List AwareDT)
    (hp : CronStruct.from_string s = .ok cs)
    (hh : cs.hour ≠ none) (hh2 : cs.hour ≠ some "*")
    (htz : tzOpt.getD cfgTz = tz)
    (hraw : calcF cs.to_string (fromOpt.getD now) n = raw)
    (hcoh : ∀ d ∈ raw,
      tz.offsetAtInstant (d.wall - tz.offsetAtLocal d.wall) =
        tz.offsetAtLocal d.wall) :
    ∃ out, tz_cron_to_utc_datetimes calcF cfgTz now s tzOpt fromOpt n false =
        .ok out ∧
      List.Forall₂ (fun r d =>
        (astimezone_tz r tz).wall = make_datetime_naive d) out raw := by
  have h := tz_cron_local_branch calcF cfgTz now s tzOpt fromOpt n cs hp
    (by rintro (h | h); exact hh h; exact hh2 h)
  rw [htz, hraw] at h
  refine ⟨_, h, ?_⟩
  rw [List.forall₂_map_left_iff]
  rw [List.forall₂_same]
  intro d hd
  have hc := hcoh d hd
  simp only [astimezone_tz, astimezone_utc, localize_datetime, make_datetime_naive]
  simp only [Int.sub_zero]
  omega

/-- Witness for C10: the corrected 17:00 UTC instant, viewed back in the
fixed UTC-8 zone, reads 9:00 again — the raw calculator reading. -/
theorem btu_C10_witness :
    ∃ out, tz_cron_to_utc_datetimes (fun _ _ _ => [⟨32400, 0⟩])
        ⟨fun _ => 0, fun _ => 0⟩ ⟨0, 0⟩ "0 9 * * *"
        (some ⟨fun _ => -28800, fun _ => -28800⟩) none 1 false =
        .ok out ∧
      List.Forall₂ (fun r d =>
        (astimezone_tz r ⟨fun _ => -28800, fun _ => -28800⟩).wall =
          make_datetime_naive d) out [⟨32400, 0⟩] :=
  btu_C10_wallclock (fun _ _ _ => [⟨32400, 0⟩])
    ⟨fun _ => 0, fun _ => 0⟩ ⟨fun _ => -28800, fun _ => -28800⟩ ⟨0, 0⟩
    "0 9 * * *" (some ⟨fun _ => -28800, fun _ => -28800⟩) none 1
    ⟨some "0", some "0", some "9", none, none, none, none⟩ [⟨32400, 0⟩]
    (by decide) (by decide) (by decide) rfl rfl (by decide)

/-- C1 (code bug): for a job whose origin queue is already registered in
`rq:queues`, the enqueue raises `IOError` and leaves the store unchanged —
`SADD` acknowledges an already-present member with `0` and the code treats
any falsy acknowledgment as failure, although its own comment allows the
name to be there already.  For contrast, the fresh-queue half of the claim
holds: the set gains the one member and the id is appended at the tail. -/
theorem btu_C1_enqueue_known_queue_fails :
    enqueue_job_immediate false false
        ⟨[("job-1", "default")], ["rq:queue:default"],
          [("rq:queue:default", ["job-0"])]⟩ "job-1" =
      (.error "Error during enqueue_job_immediate()",
        ⟨[("job-1", "default")], ["rq:queue:default"],
          [("rq:queue:default", ["job-0"])]⟩) ∧
    enqueue_job_immediate false false ⟨[("job-1", "default")], [], []⟩ "job-1" =
      (.ok (), ⟨[("job-1", "default")], ["rq:queue:default"],
        [("rq:queue:default", ["job-1"])]⟩) := by
  constructor
  · decide
  · decide

/-- C6: the two store writes are ordered — on full success the final state
is the `rpush` applied after the `sadd`; when registration reports failure
the push is never attempted (queue lists untouched) and an error is
raised; when the push reports failure after a successful registration, the
error is surfaced and the queue-name registration is left in place. -/
theorem btu_C6_two_step_order (sf pf : Bool) (st : RedisState)
    (job_id origin : String)
    (hjob : lookupJobOrigin st job_id = some origin) :
    (sf = false → pf = false → "rq:queue:" ++ origin ∉ st.queueSet →
      enqueue_job_immediate sf pf st job_id =
        (.ok (), (rpushExec (saddExec st ("rq:queue:" ++ origin)).2
          ("rq:queue:" ++ origin) job_id).2)) ∧
    ((sf = true ∨ "rq:queue:" ++ origin ∈ st.queueSet) →
      (enqueue_job_immediate sf pf st job_id).1.isOk = false ∧
        (enqueue_job_immediate sf pf st job_id).2.queues = st.queues) ∧
    (sf = false → pf = true → "rq:queue:" ++ origin ∉ st.queueSet →
      (enqueue_job_immediate sf pf st job_id).1.isOk = false ∧
        "rq:queue:" ++ origin ∈ (enqueue_job_immediate sf pf st job_id).2.queueSet) := by
  refine ⟨?_, ?_, ?_⟩
  · rintro rfl rfl hq
    simp [enqueue_job_immediate, hjob, runSadd, saddExec, if_neg hq,
      runRpush, rpushExec]
  · intro h
    rcases h with rfl | hmem
    · simp [enqueue_job_immediate, hjob, runSadd, Except.isOk, Except.toBool]
    · cases sf
      · simp [enqueue_job_immediate, hjob, runSadd, saddExec, if_pos hmem,
          Except.isOk, Except.toBool]
      · simp [enqueue_job_immediate, hjob, runSadd, Except.isOk, Except.toBool]
  · rintro rfl rfl hq
    simp [enqueue_job_immediate, hjob, runSadd, saddExec, if_neg hq, runRpush,
      Except.isOk, Except.toBool]

/-- Witness for C6: the push-fault scenario on a concrete store — the call
errors while the queue-name registration stays in the set. -/
theorem btu_C6_witness :
    (enqueue_job_immediate false true ⟨[("job-1", "default")], [], []⟩
        "job-1").1.isOk = false ∧
      "rq:queue:" ++ "default" ∈
        (enqueue_job_immediate false true ⟨[("job-1", "default")], [], []⟩
          "job-1").2.queueSet :=
  (btu_C6_two_step_order false true ⟨[("job-1", "default")], [], []⟩
    "job-1" "default" (by decide)).2.2 rfl rfl (by decide)

/-- C7: `new_with_defaults` leaves started/ended/enqueued timestamps unset,
sets status to exactly `"queued"` and timeout to `3600`, composes the job
key as tenant prefix, `|`, fresh identifier, derives the fully-qualified
store key from it, and stamps creation/heartbeat at the given current UTC
time.  It performs no store I/O by construction: it consumes no store
state and returns only the record. -/
theorem btu_C7_defaults ( jobs_site_prefix uuid_string : String) (now : AwareDT) :
    (new_with_defaults jobs_site_prefix uuid_string now).started_at = none ∧
    (new_with_defaults jobs_site_prefix uuid_string now).ended_at = none ∧
    (new_with_defaults jobs_site_prefix uuid_string now).enqueued_at = none ∧
    (new_with_defaults jobs_site_prefix uuid_string now).status = some "queued" ∧
    (new_with_defaults jobs_site_prefix uuid_string now).timeout = 3600 ∧
    (new_with_defaults jobs_site_prefix uuid_string now).job_key =
      jobs_site_prefix ++ "|" ++ uuid_string ∧
    (new_with_defaults jobs_site_prefix uuid_string now).fully_qualified_key =
      "rq:job:" ++ (new_with_defaults jobs_site_prefix uuid_string now).job_key ∧
    (new_with_defaults jobs_site_prefix uuid_string now).created_at = now ∧
    (new_with_defaults jobs_site_prefix uuid_string now).last_heartbeat = now :=
  ⟨rfl, rfl, rfl, rfl, rfl, rfl, rfl, rfl, rfl⟩

/-- C9: the immediate-enqueue trigger issues its request with a 30-second
timeout bound, succeeds exactly when the endpoint answers HTTP 200, and on
any other status raises an error carrying the response body. -/
theorem btu_C9_trigger (config : AppHttpConfig) (base_url schedule_id : String)
    (respond : HttpRequest → HttpResponse) :
    (enqueue_for_next_available_worker config base_url schedule_id respond).1.timeout
        = 30 ∧
    ((enqueue_for_next_available_worker config base_url schedule_id respond).2 =
        .ok () ↔
      (respond (enqueue_for_next_available_worker config base_url schedule_id
        respond).1).status_code = 200) ∧
    ((respond (enqueue_for_next_available_worker config base_url schedule_id
        respond).1).status_code ≠ 200 →
      (enqueue_for_next_available_worker config base_url schedule_id respond).2 =
        .error ("Unexpected response code from Frappe Framework web server: " ++
          (respond (enqueue_for_next_available_worker config base_url schedule_id
            respond).1).body)) := by
  refine ⟨rfl, ?_, ?_⟩
  · simp only [enqueue_for_next_available_worker]
    split
    · simp_all
    · simp_all
  · intro h
    simp only [enqueue_for_next_available_worker] at h ⊢
    rw [if_neg h]

/-- Witness for C9: a concrete 500 answer — the 30-second bound is set and
the error carries the response body. -/
theorem btu_C9_witness :
    (enqueue_for_next_available_worker ⟨"token-abc", none⟩ "http://frappe"
        "sched-1" (fun _ => ⟨500, "oops"⟩)).1.timeout = 30 ∧
      (enqueue_for_next_available_worker ⟨"token-abc", none⟩ "http://frappe"
        "sched-1" (fun _ => ⟨500, "oops"⟩)).2 =
        .error ("Unexpected response code from Frappe Framework web server: " ++
          "oops") :=
  ⟨(btu_C9_trigger ⟨"token-abc", none⟩ "http://frappe" "sched-1"
      (fun _ => ⟨500, "oops"⟩)).1,
    (btu_C9_trigger ⟨"token-abc", none⟩ "http://frappe" "sched-1"
      (fun _ => ⟨500, "oops"⟩)).2.2 (by decide)⟩

end BtuPy
